import Mathlib

/-!
Shallow embedding of the uber_eats_wrapped order-analytics Lambda
(`serverless/analzyer/analyzer.py`) together with theorems checking the
natural-language specification's claims against it.

Conventions:
* Python strings are Lean `String`s; helper functions (`pySplit`, `pyTitle`,
  `pyLower`, ...) model the corresponding `str` methods at the ASCII level at
  which the analyzer uses them.
* Money amounts and scores are `ℚ` (the analyzer's float arithmetic is exact
  decimal arithmetic at the scales involved).
* Fallible Python code (exceptions) is modelled with `Option`/`Except`.
* Side-effecting collaborators (S3 put, SendGrid send) are modelled by passing
  their outcome as an explicit argument.
-/

namespace UberEats

/-- Python `str.split(sep)` for a one-character separator, on a char list:
keeps empty fields, `[] → [[]]`. -/
def splitOnChar (sep : Char) : List Char → List (List Char)
  | [] => [[]]
  | c :: rest =>
    match splitOnChar sep rest with
    | [] => if c = sep then [[], []] else [[c]]
    | g :: gs => if c = sep then [] :: g :: gs else (c :: g) :: gs

/-- Python `s.split(sep)` for a one-character separator. -/
def pySplit (sep : Char) (s : String) : List String :=
  (splitOnChar sep s.toList).map (fun cs => String.mk cs)

/-- Python `s.split()` (no argument): split on whitespace, dropping empty
fields.  The analyzer's date strings only contain spaces. -/
def pySplitWs (s : String) : List String :=
  ((splitOnChar ' ' s.toList).filter (fun cs => cs ≠ [])).map (fun cs => String.mk cs)

/-- Python `str.title()` restricted to a single alphabetic token (the only way
the analyzer uses it): first character upper-cased, the rest lower-cased. -/
def pyTitle (s : String) : String :=
  match s.toList with
  | [] => ""
  | c :: cs => String.mk (c.toUpper :: cs.map Char.toLower)

/-- Python `str.lower()` at the ASCII level. -/
def pyLower (s : String) : String :=
  String.mk (s.toList.map Char.toLower)

/-- Python `c in s` membership of a character in a string. -/
def strContains (s : String) (c : Char) : Bool :=
  s.toList.contains c

/-- Python `s.endswith(suffix)`. -/
def pyEndsWith (s suffix : String) : Bool :=
  suffix.toList.isSuffixOf s.toList

/-- One raw order record, as produced by the extraction step
(`orders: List[Dict[str, Any]]` with keys `restaurantName`, `date`, `time`,
`total`, `canceled`). -/
structure Order where
  restaurantName : String
  date : String
  time : String
  total : String
  canceled : Bool
deriving Repr, DecidableEq

/-- The analyzer's `month_to_num` dictionary as an association list:
three-letter month abbreviation paired with its month number (1-based). -/
def monthPairs : List (String × Nat) :=
  [("Jan", 1), ("Feb", 2), ("Mar", 3), ("Apr", 4), ("May", 5), ("Jun", 6),
   ("Jul", 7), ("Aug", 8), ("Sep", 9), ("Oct", 10), ("Nov", 11), ("Dec", 12)]

/-- Lookup in the `month_to_num` dictionary, `none` for anything else
(a `KeyError` in Python). -/
def month_to_num (m : String) : Option Nat :=
  (monthPairs.find? (fun p => p.1 = m)).map (fun p => p.2)

/-- The first-half-of-year month set used for the initial year choice. -/
def firstHalfMonths : List String :=
  ["Jan", "Feb", "Mar", "Apr", "May", "Jun"]

/-- `month_abbr, day = order["date"].split()`: succeeds only when the date
splits into exactly two whitespace-separated tokens (otherwise Python raises
`ValueError`). -/
def splitDate (s : String) : Option (String × String) :=
  match pySplitWs s with
  | [m, d] => some (m, d)
  | _ => none

/-- The scanning loop of `add_years_to_orders` (lines 63-72): `year` is the
running year, `prev` the previous entry's month number; each order's date is
rewritten to `"<Month> <day> <year>"`. -/
def addYearsGo (year : Int) (prev : Nat) : List Order → Option (List Order)
  | [] => some []
  | o :: rest =>
    match splitDate o.date with
    | none => none
    | some (m, d) =>
      let mt := pyTitle m
      match month_to_num mt with
      | none => none
      | some n =>
        let y := if n > prev then year - 1 else year
        match addYearsGo y n rest with
        | none => none
        | some rest2 =>
          some ({ o with date := mt ++ " " ++ d ++ " " ++ toString y } :: rest2)

/-- `add_years_to_orders(orders, current_year)`: inserts years into the `date`
field of each order, assuming the list is reverse-chronological.  `none`
models the `ValueError`/`KeyError` raised on a malformed date. -/
def add_years_to_orders (orders : List Order) (current_year : Int) :
    Option (List Order) :=
  match orders with
  | [] => some []
  | o :: _ =>
    match splitDate o.date with
    | none => none
    | some (m0, _) =>
      let first_month := pyTitle m0
      match month_to_num first_month with
      | none => none
      | some n0 =>
        let year := if firstHalfMonths.contains first_month
          then current_year else current_year - 1
        addYearsGo year n0 orders

/-- Month number of one order's date, as the loop reads it: first token of the
date, title-cased, looked up in the month dictionary. -/
def monthOf (o : Order) : Option Nat :=
  (splitDate o.date).bind (fun md => month_to_num (pyTitle md.1))

/-- The month numbers of an order list's dates, `none` if any date is
malformed. -/
def monthsOfOrders (orders : List Order) : Option (List Nat) :=
  orders.mapM monthOf

/-- Order-embedding of a calendar date (year, month number, day) for months
1-12 and days 0-31; day 0 gives the month-granularity key. -/
def dateVal (y : Int) (m d : Nat) : Int :=
  y * 1000 + (m : Int) * 50 + d

/-- Spec-side year sequence, written from the claim's words: walking forward,
the running year is decremented exactly when an entry's month number is
strictly greater than the previous entry's month number. -/
def specYearsGo (year : Int) (prev : Nat) : List Nat → List Int
  | [] => []
  | n :: rest =>
    let y := if n > prev then year - 1 else year
    y :: specYearsGo y n rest

/-- Spec-side year assignment, written from the claim's words: the first
entry's year is `current_year` when its month is Jan-Jun (month number ≤ 6)
and `current_year - 1` otherwise; then decrement on every strict month
increase. -/
def specYears (months : List Nat) (current_year : Int) : List Int :=
  match months with
  | [] => []
  | n0 :: _ =>
    let y0 := if n0 ≤ 6 then current_year else current_year - 1
    specYearsGo y0 n0 months

/-- Rewriting a raw date fragment with an assigned year, as the loop body
does: title-cased month, original day, year. -/
def rewriteDate (s : String) (y : Int) : String :=
  match splitDate s with
  | some (m, d) => pyTitle m ++ " " ++ d ++ " " ++ toString y
  | none => s

/-- Attaching a year sequence to an order list: each date is rewritten, every
other field kept. -/
def applyYears (l : List Order) (ys : List Int) : List Order :=
  List.zipWith (fun o y => { o with date := rewriteDate o.date y }) l ys

/-- Digit run to a natural number (the digits are already validated). -/
def natOfDigitsL (cs : List Char) : Nat :=
  cs.foldl (fun a c => a * 10 + (c.toNat - 48)) 0

def natOfDigits (s : String) : Nat :=
  natOfDigitsL s.toList

def allDigits (s : String) : Bool :=
  s.toList.all Char.isDigit

/-- Python `int(s)` on a plain decimal string, `none` on anything else. -/
def pyParseNat (s : String) : Option Nat :=
  if s.toList ≠ [] ∧ allDigits s then some (natOfDigits s) else none

/-- Python `int(s)` allowing a leading minus sign. -/
def pyParseInt (s : String) : Option Int :=
  match s.toList with
  | '-' :: rest =>
    if rest ≠ [] ∧ rest.all Char.isDigit then some (-(natOfDigitsL rest : Int))
    else none
  | cs =>
    if cs ≠ [] ∧ cs.all Char.isDigit then some ((natOfDigitsL cs : Nat) : Int)
    else none

/-- `total.str.replace("$", "")`: drop every currency symbol. -/
def stripCurrency (s : String) : String :=
  String.mk (s.toList.filter (fun c => c ≠ '$'))

/-- `pd.to_numeric` on the data model's unsigned decimal money strings
(`"23.45"`): integer part, optional fractional part. -/
def parseDecimal (s : String) : Option ℚ :=
  match pySplit '.' s with
  | [w] =>
    if w ≠ "" ∧ allDigits w then some ((natOfDigits w : ℚ)) else none
  | [w, f] =>
    if (w ≠ "" ∨ f ≠ "") ∧ allDigits w ∧ allDigits f then
      some ((natOfDigits w : ℚ) + (natOfDigits f : ℚ) / (10 : ℚ) ^ f.toList.length)
    else none
  | _ => none

/-- The numeric order value: strip the currency symbol, parse as decimal
(`pd.to_numeric(d.total.str.replace("$", ""))`). -/
def parseMoney (s : String) : Option ℚ :=
  parseDecimal (stripCurrency s)

/-- Parse the analyzer's `"H:MM AM"` / `"H:MM PM"` time strings into minutes
past midnight, as `pd.to_datetime` reads them; `none` models a parse error. -/
def parseTime (s : String) : Option Nat :=
  match pySplitWs s with
  | [hm, ap] =>
    match pySplit ':' hm with
    | [hs, mstr] =>
      if hs ≠ "" ∧ allDigits hs ∧ mstr ≠ "" ∧ allDigits mstr then
        let hn := natOfDigits hs
        let mn := natOfDigits mstr
        if 1 ≤ hn ∧ hn ≤ 12 ∧ mn < 60 then
          if ap = "AM" then some ((if hn = 12 then 0 else hn) * 60 + mn)
          else if ap = "PM" then some ((if hn = 12 then 12 else hn + 12) * 60 + mn)
          else none
        else none
      else none
    | _ => none
  | _ => none

/-- A normalized order (`NormalizedOrder` of the data model): the year-dated
order together with its resolved timestamp components and numeric value. -/
structure NOrder where
  base : Order
  year : Int
  month : Nat
  day : Nat
  minutes : Nat
  total_value : ℚ
deriving Repr, DecidableEq

/-- Total order on normalized orders by resolved instant: an order-embedding
of ((year, month, day) lexicographic, minutes) for in-range components. -/
def NOrder.tsv (o : NOrder) : Int :=
  (o.year * 1000 + (o.month : Int) * 50 + o.day) * 2000 + o.minutes

/-- The `(year, month)` calendar-month bucket key (`ts.dt.to_period("M")`). -/
def NOrder.monthKey (o : NOrder) : Int :=
  o.year * 1000 + o.month

/-- Hour-of-day component (`ts.dt.hour`). -/
def NOrder.hour (o : NOrder) : Nat :=
  o.minutes / 60

/-- Build the `NormalizedOrder` for one year-dated order: re-parse the date
(`"<Month> <day> <year>"`), the time, and the money value, as the
`pd.to_datetime`/`pd.to_numeric` assigns do; `none` models a parse failure. -/
def normalizeOrder (o : Order) : Option NOrder :=
  match pySplitWs o.date with
  | [m, d, y] =>
    match month_to_num m, pyParseNat d, pyParseInt y, parseTime o.time,
        parseMoney o.total with
    | some mn, some dn, some yn, some mins, some v =>
      if 1 ≤ dn ∧ dn ≤ 31 then some ⟨o, yn, mn, dn, mins, v⟩ else none
    | _, _, _, _, _ => none
  | _ => none

/-- `df.sort_values("ts", ascending=True)`: sort the normalized orders
chronologically (stable insertion sort; only the permutation matters). -/
def sortDF (l : List NOrder) : List NOrder :=
  l.insertionSort (fun a b => a.tsv ≤ b.tsv)

/-- Running prefix sums with accumulator, the shape of `cumsum`. -/
def cumsumFrom (acc : ℚ) : List ℚ → List ℚ
  | [] => []
  | x :: xs => (acc + x) :: cumsumFrom (acc + x) xs

/-- `total_value.cumsum()`: the i-th entry is the sum of the first i+1
values. -/
def cumsum (l : List ℚ) : List ℚ :=
  cumsumFrom 0 l

/-- Lines 182-194 of the analyzer: insert years, normalize every order, sort
chronologically. -/
def pipelineDF (orders : List Order) (current_year : Int) :
    Option (List NOrder) := do
  let dated ← add_years_to_orders orders current_year
  let ns ← dated.mapM normalizeOrder
  pure (sortDF ns)

/-- One entry of the `comparisons` catalog of `get_best_comparison`. -/
structure CatalogItem where
  category : String
  price : ℚ
  name : String
deriving Repr, DecidableEq

/-- The `comparisons` catalog in Python dict iteration (insertion) order:
grocery, experience, tech, each category's items in listed order. -/
def catalogItems : List CatalogItem :=
  [⟨"grocery", 6, "Starbucks lattes ☕"⟩,
   ⟨"grocery", 200, "weeks of groceries 🛒"⟩,
   ⟨"grocery", 800, "months of groceries 🛒"⟩,
   ⟨"experience", 15, "movie tickets 🎬"⟩,
   ⟨"experience", 80, "nice dinners out 🍽️"⟩,
   ⟨"experience", 600, "weekend getaways ✈️"⟩,
   ⟨"experience", 2000, "week-long vacations 🏖️"⟩,
   ⟨"tech", 180, "AirPods 🎧"⟩,
   ⟨"tech", 400, "Apple Watches ⌚"⟩,
   ⟨"tech", 1000, "iPhones 📱"⟩,
   ⟨"tech", 1800, "MacBooks 💻"⟩]

/-- `{'experience': 0, 'tech': 0.5, 'grocery': 1}[category]`; only the three
catalog categories ever occur. -/
def category_bonus (c : String) : ℚ :=
  if c = "experience" then 0 else if c = "tech" then 1 / 2 else 1

/-- The `ComparisonResult`: formatted quantity and item description. -/
structure Comparison where
  quantity : String
  description : String
deriving Repr, DecidableEq

/-- Round to the nearest integer, ties to even — the rounding of Python's
float formatting at the exactly-representable ties. -/
def roundHalfEven (q : ℚ) : ℤ :=
  let fl := ⌊q⌋
  if q - fl < 1 / 2 then fl
  else if q - fl > 1 / 2 then fl + 1
  else if fl % 2 = 0 then fl else fl + 1

/-- Python `f"{q:.0f}"`. -/
def fmt0 (q : ℚ) : String :=
  toString (roundHalfEven q)

def fmtTenths (n : ℤ) : String :=
  toString (n / 10) ++ "." ++ toString (n % 10)

/-- Python `f"{q:.1f}"`. -/
def fmt1 (q : ℚ) : String :=
  let n := roundHalfEven (q * 10)
  if n < 0 then "-" ++ fmtTenths (-n) else fmtTenths n

/-- The comparison built for a selected quantity: one decimal place below 10,
whole number otherwise. -/
def mkComparison (quantity : ℚ) (nm : String) : Comparison :=
  ⟨if quantity < 10 then fmt1 quantity else fmt0 quantity, nm⟩

/-- The relatable-quantity filter: `1 <= quantity <= 10`. -/
def inRange (amount : ℚ) (it : CatalogItem) : Bool :=
  decide (1 ≤ amount / it.price) && decide (amount / it.price ≤ 10)

/-- The scoring rule: `abs(quantity - 3) + category_bonus`. -/
def itemScore (amount : ℚ) (it : CatalogItem) : ℚ :=
  |amount / it.price - 3| + category_bonus it.category

/-- One step of the `get_best_comparison` loop: skip items out of range,
otherwise replace the best candidate exactly on a strict score improvement. -/
def gbcStep (amount : ℚ) (acc : Option (ℚ × Comparison)) (it : CatalogItem) :
    Option (ℚ × Comparison) :=
  let quantity := amount / it.price
  if 1 ≤ quantity ∧ quantity ≤ 10 then
    let score := |quantity - 3| + category_bonus it.category
    match acc with
    | none => some (score, mkComparison quantity it.name)
    | some (bs, bc) =>
      if score < bs then some (score, mkComparison quantity it.name)
      else some (bs, bc)
  else acc

/-- `get_best_comparison(amount)` (lines 76-127): loop over the catalog
keeping the best-scoring in-range item, with the no-candidate fallback. -/
def get_best_comparison (amount : ℚ) : Comparison :=
  match catalogItems.foldl (gbcStep amount) none with
  | some (_, c) => c
  | none =>
    if amount < 100 then ⟨fmt0 (amount / 4), "Starbucks lattes ☕"⟩
    else ⟨fmt1 (amount / 80), "nice dinners out 🍽️"⟩

/-- Unconditional variant of the loop step, for relating the loop to
`List.argmin` over the in-range candidates. -/
def gbcUpd (amount : ℚ) (acc : Option (ℚ × Comparison)) (it : CatalogItem) :
    Option (ℚ × Comparison) :=
  let quantity := amount / it.price
  let score := |quantity - 3| + category_bonus it.category
  match acc with
  | none => some (score, mkComparison quantity it.name)
  | some (bs, bc) =>
    if score < bs then some (score, mkComparison quantity it.name)
    else some (bs, bc)

/-- The packed (score, comparison) pair the loop carries for an item. -/
def gbcPack (amount : ℚ) (it : CatalogItem) : ℚ × Comparison :=
  (itemScore amount it, mkComparison (amount / it.price) it.name)

/-- Mean of the order values: `none` on the division by zero an empty frame
would cause. -/
def safeDiv (a : ℚ) (n : Nat) : Option ℚ :=
  if n = 0 then none else some (a / (n : ℚ))

/-- `value_counts().idxmax()`: the first element of the list whose
multiplicity is maximal (the underlying library leaves ties unspecified;
first-seen is this model's deterministic choice). -/
def firstMode {α : Type} [BEq α] (l : List α) : Option α :=
  l.find? (fun a => l.all (fun b => decide (l.count b ≤ l.count a)))

/-- `df["total_value"].idxmax()` row: the first row with maximal value. -/
def firstMaxBy (l : List NOrder) : Option NOrder :=
  l.find? (fun a => l.all (fun b => decide (b.total_value ≤ a.total_value)))

/-- `_hour_label`: `22 → "10PM"`, `9 → "9AM"`, `0 → "12AM"`. -/
def hour_label (h : Nat) : String :=
  let h12 := h % 12
  toString (if h12 = 0 then 12 else h12) ++ (if h < 12 then "AM" else "PM")

/-- Weekday names indexed by Zeller's congruence value (0 = Saturday). -/
def dayNames : List String :=
  ["Saturday", "Sunday", "Monday", "Tuesday", "Wednesday", "Thursday",
   "Friday"]

/-- `ts.dt.day_name()`: weekday of a calendar date, via Zeller's
congruence. -/
def day_name (y : Int) (m d : Nat) : String :=
  let mm : Int := if m < 3 then (m : Int) + 12 else (m : Int)
  let yy : Int := if m < 3 then y - 1 else y
  let K := yy % 100
  let J := yy / 100
  let h := ((d : Int) + 13 * (mm + 1) / 5 + K + K / 4 + J / 4 + 5 * J) % 7
  dayNames.getD h.toNat ""

/-- `groupby(ts.dt.to_period("M")).total_value.sum()` on the chronologically
sorted frame: merge consecutive rows of equal month key. -/
def groupMonthly : List NOrder → List (Int × ℚ)
  | [] => []
  | o :: rest =>
    match groupMonthly rest with
    | [] => [(o.monthKey, o.total_value)]
    | (k, v) :: t =>
      if k = o.monthKey then (k, o.total_value + v) :: t
      else (o.monthKey, o.total_value) :: (k, v) :: t

/-- The spending-chart slot of the report: the published image, or the
monthly-spend table fallback (line 479). -/
inductive Slot1 where
  | image (url : String)
  | monthlyTable (rows : List (Int × ℚ))
deriving Repr, DecidableEq

/-- The cumulative-chart slot of the report: the published image, or the
textual pointer fallback (line 483). -/
inductive Slot2 where
  | image (url : String)
  | pointerText
deriving Repr, DecidableEq

/-- The dynamic content of the composed report: the KPI cards, the two chart
slots, and the order table. -/
structure ReportData where
  total_orders : Nat
  total_spent : ℚ
  avg_order_value : ℚ
  canceled_orders : Nat
  top_hour : String
  top_day : String
  top_restaurant : String
  top_restaurant_count : Nat
  largest_value : ℚ
  largest_restaurant : String
  largest_date : String
  comparison : Comparison
  spending_slot : Slot1
  cumulative_slot : Slot2
  order_table : List (String × String × String × String)
deriving Repr, DecidableEq

/-- The analyzer's output document: the explicit no-orders page, or the full
report. -/
inductive ReportDoc where
  | noOrders
  | report (data : ReportData)
deriving Repr, DecidableEq

/-- Environment of the chart-publish step: bucket configuration, the run
timestamp, and the outcome each S3 put would have. -/
structure ChartEnv where
  bucket : String
  timestamp : String
  putSpending : Except String Unit
  putCumulative : Except String Unit

/-- `upload_chart_to_s3` (lines 131-167): on success the public URL, on any
exception `None` — the error is caught, never propagated. -/
def upload_chart_to_s3 (putResult : Except String Unit)
    (bucket chart_name timestamp : String) : Option String :=
  match putResult with
  | Except.ok _ =>
    some ("https://" ++ bucket ++ ".s3.amazonaws.com/charts/" ++ timestamp
      ++ "_" ++ chart_name ++ "_chart.png")
  | Except.error _ => none

/-- The statistics + composition part of `analyze_orders` on the sorted
normalized frame (lines 196-493). -/
def computeReport (df : List NOrder) (env : ChartEnv) : Option ReportData :=
  match firstMaxBy df, firstMode (df.map NOrder.hour),
      firstMode (df.map (fun o => day_name o.year o.month o.day)),
      firstMode (df.map (fun o => o.base.restaurantName)),
      safeDiv ((df.map NOrder.total_value).sum) df.length with
  | some largest, some tophr, some topday, some toprest, some avg => some {
    total_orders := df.length
    total_spent := (df.map NOrder.total_value).sum
    avg_order_value := avg
    canceled_orders := (df.filter (fun o => o.base.canceled)).length
    top_hour := hour_label tophr
    top_day := topday
    top_restaurant := toprest
    top_restaurant_count := (df.map (fun o => o.base.restaurantName)).count toprest
    largest_value := largest.total_value
    largest_restaurant := largest.base.restaurantName
    largest_date := largest.base.date
    comparison := get_best_comparison ((df.map NOrder.total_value).sum)
    spending_slot :=
      match upload_chart_to_s3 env.putSpending env.bucket "spending"
          env.timestamp with
      | some u => Slot1.image u
      | none => Slot1.monthlyTable (groupMonthly df)
    cumulative_slot :=
      match upload_chart_to_s3 env.putCumulative env.bucket "cumulative"
          env.timestamp with
      | some u => Slot2.image u
      | none => Slot2.pointerText
    order_table :=
      df.map (fun o => (o.base.restaurantName, o.base.date, o.base.time,
        o.base.total)) }
  | _, _, _, _, _ => none

/-- `analyze_orders` (lines 169-493): empty input short-circuits to the
no-orders document; otherwise normalize, compute, compose.  `none` models an
uncaught exception inside the analysis. -/
def analyze_orders (orders : List Order) (current_year : Int)
    (env : ChartEnv) : Option ReportDoc :=
  if orders.isEmpty then some ReportDoc.noOrders
  else
    match pipelineDF orders current_year with
    | none => none
    | some df => (computeReport df env).map ReportDoc.report

/-- `extract_user_email_from_key` (lines 528-539): first `/`-segment with both
`@` and `.`, else the second-to-last segment, else `"unknown"`. -/
def extract_user_email_from_key (s3_key : String) : String :=
  let parts := pySplit '/' s3_key
  match parts.find? (fun p => strContains p '@' && strContains p '.') with
  | some p => p
  | none => if parts.length > 1 then parts.getD (parts.length - 2) "" else "unknown"

/-- Spec-side recursion: the first path segment containing both `@` and
`.`. -/
def firstEmailSeg : List String → Option String
  | [] => none
  | p :: ps =>
    if strContains p '@' && strContains p '.' then some p else firstEmailSeg ps

/-- Python falsiness of an optional environment string (`not value`): absent
or empty. -/
def pyFalsy : Option String → Bool
  | none => true
  | some s => decide (s = "")

/-- The body of `send_email`'s try block (lines 499-522): check the two
configuration values, then attempt delivery.  `sendResult` is the outcome
SendGrid would give: a status code, or an exception message. -/
def send_email_inner (api_key sender : Option String)
    (sendResult : Except String Nat) : Except String Bool :=
  if pyFalsy api_key then
    Except.error "DEREK_SENDGRID_API_KEY environment variable is not set"
  else if pyFalsy sender then
    Except.error "DEREK_SENDER_EMAIL environment variable is not set"
  else
    match sendResult with
    | Except.error e => Except.error e
    | Except.ok status => Except.ok (decide (200 ≤ status) && decide (status < 300))

/-- `send_email` (lines 495-526): any raised error is caught and turns into
`False`. -/
def send_email (api_key sender : Option String)
    (sendResult : Except String Nat) : Bool :=
  match send_email_inner api_key sender sendResult with
  | Except.ok b => b
  | Except.error _ => false

/-- Percent/plus decoding of `urllib.parse.unquote_plus` at the byte level:
`+` to space, `%hh` to the coded character, malformed escapes left as-is. -/
def hexVal (c : Char) : Option Nat :=
  if '0' ≤ c ∧ c ≤ '9' then some (c.toNat - 48)
  else if 'a' ≤ c ∧ c ≤ 'f' then some (c.toNat - 87)
  else if 'A' ≤ c ∧ c ≤ 'F' then some (c.toNat - 55)
  else none

def unquotePlusChars : List Char → List Char
  | [] => []
  | '+' :: rest => ' ' :: unquotePlusChars rest
  | '%' :: a :: b :: rest =>
    match hexVal a, hexVal b with
    | some x, some y => Char.ofNat (16 * x + y) :: unquotePlusChars rest
    | _, _ => '%' :: unquotePlusChars (a :: b :: rest)
  | c :: rest => c :: unquotePlusChars rest

def unquote_plus (s : String) : String :=
  String.mk (unquotePlusChars s.toList)

/-- The `s3` payload of one event record (`record['s3']`). -/
structure S3Entity where
  bucket : String
  key : String
deriving Repr, DecidableEq

/-- One record of the Lambda event.  `s3 = none` models a record claiming
`eventSource == 'aws:s3'` but lacking the `s3` payload — indexing it raises a
`KeyError` outside the per-record try block. -/
structure S3Record where
  eventSource : String
  s3 : Option S3Entity
deriving Repr, DecidableEq

/-- The JSON shapes `lambda_handler` distinguishes after parsing a fetched
file. -/
inductive JsonShape where
  | objOrders (orders : List Order)
  | arr (orders : List Order)
  | other
deriving Repr, DecidableEq

/-- Outcome of fetching and JSON-parsing one `{bucket, key}` object: a
`ClientError`, a `JSONDecodeError`, or the parsed value. -/
inductive FetchOutcome where
  | clientError (msg : String)
  | jsonError (msg : String)
  | parsed (j : JsonShape)
deriving Repr, DecidableEq

/-- What happened to one event record, as the handler's logging records it. -/
inductive RecordOutcome where
  | notS3
  | skippedNonJson
  | fetchError
  | parseError
  | badShape
  | emptyOrders
  | processingError
  | sent (user : String)
  | emailFailed (user : String)
deriving Repr, DecidableEq

/-- The external world of one invocation: the object store's response per
`(bucket, key)`, the chart environment, the email configuration, and
SendGrid's response per recipient. -/
structure LambdaEnv where
  current_year : Int
  chart : ChartEnv
  fetchParse : String → String → FetchOutcome
  api_key : Option String
  sender_email : Option String
  sendStatus : String → Except String Nat

/-- The per-record body of the handler loop once the orders are in hand. -/
def processOrders (env : LambdaEnv) (user_email : String)
    (orders : List Order) : RecordOutcome :=
  if orders.isEmpty then RecordOutcome.emptyOrders
  else
    match analyze_orders orders env.current_year env.chart with
    | none => RecordOutcome.processingError
    | some _doc =>
      if send_email env.api_key env.sender_email (env.sendStatus user_email)
      then RecordOutcome.sent user_email
      else RecordOutcome.emailFailed user_email

/-- One iteration of the handler loop (lines 546-612).  Everything from the
S3 fetch on is inside the per-record try and yields an `Except.ok` outcome;
only the unguarded `record['s3']` indexing can escape. -/
def processRecord (env : LambdaEnv) (r : S3Record) :
    Except String RecordOutcome :=
  if r.eventSource ≠ "aws:s3" then Except.ok RecordOutcome.notS3
  else
    match r.s3 with
    | none => Except.error "KeyError: s3"
    | some entity =>
      let source_key := unquote_plus entity.key
      if ¬ pyEndsWith (pyLower source_key) ".json" then
        Except.ok RecordOutcome.skippedNonJson
      else
        let user_email := extract_user_email_from_key source_key
        match env.fetchParse entity.bucket source_key with
        | FetchOutcome.clientError _ => Except.ok RecordOutcome.fetchError
        | FetchOutcome.jsonError _ => Except.ok RecordOutcome.parseError
        | FetchOutcome.parsed JsonShape.other => Except.ok RecordOutcome.badShape
        | FetchOutcome.parsed (JsonShape.objOrders orders) =>
          Except.ok (processOrders env user_email orders)
        | FetchOutcome.parsed (JsonShape.arr orders) =>
          Except.ok (processOrders env user_email orders)

/-- The handler loop over the batch, stopping only on an escaped error. -/
def runRecords (env : LambdaEnv) : List S3Record →
    Except String (List RecordOutcome)
  | [] => Except.ok []
  | r :: rs =>
    match processRecord env r with
    | Except.error e => Except.error e
    | Except.ok o =>
      match runRecords env rs with
      | Except.error e => Except.error e
      | Except.ok os => Except.ok (o :: os)

/-- The invocation result plus the per-record outcome trace (the handler's
structured logging). -/
structure HandlerResponse where
  statusCode : Nat
  body : String
  outcomes : List RecordOutcome
deriving Repr, DecidableEq

/-- `lambda_handler` (lines 541-624): 200 with the success message when the
top level completes; 500 only when an error escapes the per-record
handling. -/
def lambda_handler (records : List S3Record) (env : LambdaEnv) :
    HandlerResponse :=
  match runRecords env records with
  | Except.ok os => ⟨200, "Uber Eats analysis completed successfully", os⟩
  | Except.error e => ⟨500, "Error: " ++ e, []⟩

/-- A record is well-formed when an `aws:s3` record carries its `s3`
payload. -/
def wfRecord (r : S3Record) : Prop :=
  r.eventSource = "aws:s3" → r.s3.isSome

/-- The outcome of one record, total on well-formed records. -/
def recordOutcome (env : LambdaEnv) (r : S3Record) : RecordOutcome :=
  match processRecord env r with
  | Except.ok o => o
  | Except.error _ => RecordOutcome.notS3

/-- Concrete order lists used to instantiate the theorems below. -/
def wOrdersC1 : List Order :=
  [⟨"A", "Jan 5", "1:00 PM", "$5.00", false⟩,
   ⟨"B", "Dec 20", "1:00 PM", "$5.00", false⟩,
   ⟨"C", "Dec 1", "1:00 PM", "$5.00", false⟩]

def wOrdersC2 : List Order :=
  [⟨"A", "Mar 5", "1:00 PM", "$5.00", false⟩,
   ⟨"B", "Mar 6", "1:00 PM", "$5.00", false⟩]

def wOrderJun : Order :=
  ⟨"A", "Jun 1", "6:00 PM", "$20.00", false⟩

def wNOrderJun : NOrder :=
  ⟨⟨"A", "Jun 1 2025", "6:00 PM", "$20.00", false⟩, 2025, 6, 1, 1080, 20⟩

def wChartFail : ChartEnv :=
  ⟨"bkt", "ts", Except.error "putfail1", Except.error "putfail2"⟩

/-- The report the analyzer produces for `[wOrderJun]` under `wChartFail`. -/
def wReportJun : ReportData :=
  { total_orders := 1
    total_spent := 20
    avg_order_value := 20
    canceled_orders := 0
    top_hour := "6PM"
    top_day := "Sunday"
    top_restaurant := "A"
    top_restaurant_count := 1
    largest_value := 20
    largest_restaurant := "A"
    largest_date := "Jun 1 2025"
    comparison := ⟨"3.3", "Starbucks lattes ☕"⟩
    spending_slot := Slot1.monthlyTable [(2025006, 20)]
    cumulative_slot := Slot2.pointerText
    order_table := [("A", "Jun 1 2025", "6:00 PM", "$20.00")] }

def wLambdaEnv : LambdaEnv :=
  { current_year := 2025
    chart := ⟨"bkt", "ts", Except.ok (), Except.ok ()⟩
    fetchParse := fun _ _ => FetchOutcome.clientError "access denied"
    api_key := none
    sender_email := none
    sendStatus := fun _ => Except.error "network down" }

def wRecords : List S3Record :=
  [⟨"aws:s3", some ⟨"bkt", "u/a@b.com/orders.json"⟩⟩,
   ⟨"aws:s3", some ⟨"bkt", "photo.png"⟩⟩]

theorem month_to_num_some {m : String} {n : Nat}
    (h : month_to_num m = some n) :
    ∃ p, p ∈ monthPairs ∧ p.1 = m ∧ p.2 = n := by
  unfold month_to_num at h
  cases hf : monthPairs.find? (fun p => p.1 = m) with
  | none => rw [hf] at h; exact Option.noConfusion h
  | some p =>
    rw [hf] at h
    refine ⟨p, List.mem_of_find?_eq_some hf, ?_, ?_⟩
    · have := List.find?_some hf
      simpa using this
    · simpa using h

theorem month_to_num_bounds {m : String} {n : Nat}
    (h : month_to_num m = some n) : 1 ≤ n ∧ n ≤ 12 := by
  obtain ⟨p, hp, -, rfl⟩ := month_to_num_some h
  clear h
  revert p hp
  decide

theorem month_to_num_firstHalf {m : String} {n : Nat}
    (h : month_to_num m = some n) :
    firstHalfMonths.contains m = decide (n ≤ 6) := by
  obtain ⟨p, hp, rfl, rfl⟩ := month_to_num_some h
  clear h
  revert p hp
  decide

theorem monthOf_some {o : Order} {n : Nat} (h : monthOf o = some n) :
    ∃ m d, splitDate o.date = some (m, d) ∧ month_to_num (pyTitle m) = some n := by
  unfold monthOf at h
  cases hsd : splitDate o.date with
  | none => rw [hsd] at h; exact Option.noConfusion h
  | some md =>
    obtain ⟨m, d⟩ := md
    rw [hsd] at h
    exact ⟨m, d, rfl, h⟩

theorem mapM_monthOf_cons {o : Order} {rest : List Order} {ms : List Nat}
    (h : (o :: rest).mapM monthOf = some ms) :
    ∃ n ns, monthOf o = some n ∧ rest.mapM monthOf = some ns ∧ ms = n :: ns := by
  rw [List.mapM_cons] at h
  cases hmo : monthOf o with
  | none => rw [hmo] at h; exact Option.noConfusion h
  | some n =>
    rw [hmo] at h
    cases hr : rest.mapM monthOf with
    | none => rw [hr] at h; exact Option.noConfusion h
    | some ns =>
      rw [hr] at h
      refine ⟨n, ns, rfl, rfl, ?_⟩
      exact (Option.some.injEq _ _ ▸ h).symm

theorem addYearsGo_eq : ∀ (l : List Order) (year : Int) (prev : Nat)
    (ms : List Nat), l.mapM monthOf = some ms →
    addYearsGo year prev l = some (applyYears l (specYearsGo year prev ms)) := by
  intro l
  induction l with
  | nil =>
    intro year prev ms h
    simp only [List.mapM_nil, Option.pure_def, Option.some.injEq] at h
    subst h
    rfl
  | cons o rest ih =>
    intro year prev ms h
    obtain ⟨n, ns, hmo, hrest, rfl⟩ := mapM_monthOf_cons h
    obtain ⟨m, d, hsd, hmn⟩ := monthOf_some hmo
    have hrec := ih (if n > prev then year - 1 else year) n ns hrest
    simp only [addYearsGo, hsd, hmn, hrec, specYearsGo, applyYears,
      List.zipWith_cons_cons, rewriteDate]

theorem add_years_eq {orders : List Order} {ms : List Nat} (cy : Int)
    (h : monthsOfOrders orders = some ms) :
    add_years_to_orders orders cy =
      some (applyYears orders (specYears ms cy)) := by
  cases orders with
  | nil =>
    unfold monthsOfOrders at h
    simp only [List.mapM_nil, Option.pure_def, Option.some.injEq] at h
    subst h
    rfl
  | cons o rest =>
    unfold monthsOfOrders at h
    obtain ⟨n, ns, hmo, hrest, rfl⟩ := mapM_monthOf_cons h
    obtain ⟨m, d, hsd, hmn⟩ := monthOf_some hmo
    have hAll : (o :: rest).mapM monthOf = some (n :: ns) := by
      rw [List.mapM_cons, hmo, hrest]; rfl
    have hc := month_to_num_firstHalf hmn
    have hrec := addYearsGo_eq (o :: rest) (if n ≤ 6 then cy else cy - 1) n
      (n :: ns) hAll
    simp only [add_years_to_orders, hsd, hmn, hc, specYears,
      decide_eq_true_eq]
    exact hrec

theorem monthsOf_le12 : ∀ {orders : List Order} {ms : List Nat},
    monthsOfOrders orders = some ms → ∀ n ∈ ms, n ≤ 12 := by
  intro orders
  induction orders with
  | nil =>
    intro ms h
    unfold monthsOfOrders at h
    simp only [List.mapM_nil, Option.pure_def, Option.some.injEq] at h
    subst h
    simp
  | cons o rest ih =>
    intro ms h
    unfold monthsOfOrders at h
    obtain ⟨n, ns, hmo, hrest, rfl⟩ := mapM_monthOf_cons h
    intro x hx
    rcases List.mem_cons.mp hx with rfl | hx
    · obtain ⟨m, d, hsd, hmn⟩ := monthOf_some hmo
      exact (month_to_num_bounds hmn).2
    · exact ih hrest x hx

theorem monthsOf_splitDate : ∀ {orders : List Order} {ms : List Nat},
    monthsOfOrders orders = some ms →
    ∀ o ∈ orders, ∃ md, splitDate o.date = some md := by
  intro orders
  induction orders with
  | nil => intro ms _ o ho; exact absurd ho (List.not_mem_nil o)
  | cons o rest ih =>
    intro ms h x hx
    unfold monthsOfOrders at h
    obtain ⟨n, ns, hmo, hrest, rfl⟩ := mapM_monthOf_cons h
    rcases List.mem_cons.mp hx with rfl | hx
    · obtain ⟨m, d, hsd, _⟩ := monthOf_some hmo
      exact ⟨(m, d), hsd⟩
    · exact ih hrest x hx

theorem monthsOf_length : ∀ {orders : List Order} {ms : List Nat},
    monthsOfOrders orders = some ms → ms.length = orders.length := by
  intro orders
  induction orders with
  | nil =>
    intro ms h
    unfold monthsOfOrders at h
    simp only [List.mapM_nil, Option.pure_def, Option.some.injEq] at h
    subst h
    rfl
  | cons o rest ih =>
    intro ms h
    unfold monthsOfOrders at h
    obtain ⟨n, ns, _, hrest, rfl⟩ := mapM_monthOf_cons h
    simpa using ih hrest

theorem specYearsGo_length : ∀ (ms : List Nat) (year : Int) (prev : Nat),
    (specYearsGo year prev ms).length = ms.length := by
  intro ms
  induction ms with
  | nil => intro year prev; rfl
  | cons n rest ih => intro year prev; simpa [specYearsGo] using ih _ _

theorem specYears_length (ms : List Nat) (cy : Int) :
    (specYears ms cy).length = ms.length := by
  cases ms with
  | nil => rfl
  | cons n rest => simpa [specYears] using specYearsGo_length (n :: rest) _ _

theorem specYearsGo_chain : ∀ (ms : List Nat) (year : Int) (prev : Nat),
    (∀ n ∈ ms, n ≤ 12) →
    List.Chain (fun a b => b ≤ a) (dateVal year prev 0)
      (List.zipWith (fun y m => dateVal y m 0) (specYearsGo year prev ms) ms) := by
  intro ms
  induction ms with
  | nil => intro year prev _; exact List.Chain.nil
  | cons n rest ih =>
    intro year prev h
    simp only [specYearsGo, List.zipWith_cons_cons]
    constructor
    · have hn : n ≤ 12 := h n (List.mem_cons_self n rest)
      unfold dateVal
      split
      · push_cast
        omega
      · rename_i hle
        push_cast
        omega
    · exact ih _ n (fun x hx => h x (List.mem_cons_of_mem n hx))

theorem specYears_chain (ms : List Nat) (cy : Int)
    (h : ∀ n ∈ ms, n ≤ 12) :
    List.Chain' (fun a b => b ≤ a)
      (List.zipWith (fun y m => dateVal y m 0) (specYears ms cy) ms) := by
  cases ms with
  | nil => simp
  | cons n rest =>
    have hc := specYearsGo_chain (n :: rest)
      (if n ≤ 6 then cy else cy - 1) n h
    have : List.Chain' (fun a b : Int => b ≤ a)
        (dateVal (if n ≤ 6 then cy else cy - 1) n 0 ::
          List.zipWith (fun y m => dateVal y m 0)
            (specYearsGo (if n ≤ 6 then cy else cy - 1) n (n :: rest))
            (n :: rest)) := hc
    simpa [specYears] using this.tail

theorem applyYears_frame : ∀ (l : List Order) (ys : List Int),
    (∀ o ∈ l, ∃ md, splitDate o.date = some md) →
    List.Forall₂ (fun (p : Order × Int) (r : Order) =>
        r.restaurantName = p.1.restaurantName ∧ r.time = p.1.time ∧
        r.total = p.1.total ∧ r.canceled = p.1.canceled ∧
        ∃ m d, splitDate p.1.date = some (m, d) ∧
          r.date = pyTitle m ++ " " ++ d ++ " " ++ toString p.2)
      (l.zip ys) (applyYears l ys) := by
  intro l
  induction l with
  | nil => intro ys _; simp [applyYears]
  | cons o rest ih =>
    intro ys h
    cases ys with
    | nil => simp [applyYears]
    | cons y ys =>
      obtain ⟨⟨m, d⟩, hsd⟩ := h o (List.mem_cons_self o rest)
      simp only [List.zip_cons_cons, applyYears, List.zipWith_cons_cons]
      refine List.Forall₂.cons ?_
        (ih ys (fun x hx => h x (List.mem_cons_of_mem o hx)))
      refine ⟨rfl, rfl, rfl, rfl, m, d, hsd, ?_⟩
      simp [rewriteDate, hsd]

/-- C1: for every non-empty well-formed reverse-chronological order list, the
code's year assignment equals the spec-worded one (`specYears`: first entry
gets `current_year` iff its month is Jan-Jun, walking forward the running
year is decremented exactly when an entry's month number strictly exceeds the
previous one), with each running year attached to its date; and on the
claim's example `["Jan 5", "Dec 20", "Dec 1"]` with current year 2025 the
assigned years are 2025, 2024, 2024. -/
theorem claim_C1 (orders : List Order) (cy : Int) (ms : List Nat)
    (h : monthsOfOrders orders = some ms) (hne : orders ≠ []) :
    add_years_to_orders orders cy =
      some (applyYears orders (specYears ms cy)) ∧
    add_years_to_orders wOrdersC1 2025 =
      some [⟨"A", "Jan 5 2025", "1:00 PM", "$5.00", false⟩,
            ⟨"B", "Dec 20 2024", "1:00 PM", "$5.00", false⟩,
            ⟨"C", "Dec 1 2024", "1:00 PM", "$5.00", false⟩] :=
  ⟨add_years_eq cy h, by decide⟩

theorem claim_C1_witness :
    monthsOfOrders wOrdersC1 = some [1, 12, 12] ∧ wOrdersC1 ≠ [] ∧
    add_years_to_orders wOrdersC1 2025 =
      some (applyYears wOrdersC1 (specYears [1, 12, 12] 2025)) :=
  ⟨by decide, by decide,
    (claim_C1 wOrdersC1 2025 [1, 12, 12] (by decide) (by decide)).1⟩

/-- C2 as stated is false: the fragment list `["Mar 5", "Mar 6"]` is
consistent with a reverse-chronological ordering (Mar 5 2025, then Mar 6
2024), but `add_years_to_orders` assigns both entries the same year, so the
resulting dates read forward strictly increase. -/
theorem claim_C2_counterexample :
    List.Chain' (fun a b => b ≤ a) [dateVal 2025 3 5, dateVal 2024 3 6] ∧
    add_years_to_orders wOrdersC2 2025 =
      some [⟨"A", "Mar 5 2025", "1:00 PM", "$5.00", false⟩,
            ⟨"B", "Mar 6 2025", "1:00 PM", "$5.00", false⟩] ∧
    ¬ List.Chain' (fun a b => b ≤ a) [dateVal 2025 3 5, dateVal 2025 3 6] :=
  ⟨by norm_num [List.chain'_cons, List.chain'_singleton, dateVal],
   by decide,
   by norm_num [List.chain'_cons, List.chain'_singleton, dateVal]⟩

/-- C2 amended: the guarantee holds at month granularity — for every
well-formed order list the code attaches the `specYears` years, and the
assigned (year, month) keys, read forward, are monotonically non-increasing.
(At day granularity the claim fails, see the counterexample.) -/
theorem claim_C2 (orders : List Order) (cy : Int) (ms : List Nat)
    (h : monthsOfOrders orders = some ms) :
    add_years_to_orders orders cy =
      some (applyYears orders (specYears ms cy)) ∧
    List.Chain' (fun a b => b ≤ a)
      (List.zipWith (fun y m => dateVal y m 0) (specYears ms cy) ms) :=
  ⟨add_years_eq cy h, specYears_chain ms cy (monthsOf_le12 h)⟩

theorem claim_C2_witness :
    add_years_to_orders wOrdersC2 2025 =
      some (applyYears wOrdersC2 (specYears [3, 3] 2025)) ∧
    List.Chain' (fun a b => b ≤ a)
      (List.zipWith (fun y m => dateVal y m 0) (specYears [3, 3] 2025)
        [3, 3]) :=
  claim_C2 wOrdersC2 2025 [3, 3] (by decide)

/-- C10: on well-formed dates, `add_years_to_orders` returns a list of the
same length and order in which every field other than `date` is unchanged and
`date` becomes title-cased month, original day, inferred year. -/
theorem claim_C10 (orders : List Order) (cy : Int) (ms : List Nat)
    (h : monthsOfOrders orders = some ms) :
    ∃ res, add_years_to_orders orders cy = some res ∧
      res.length = orders.length ∧
      List.Forall₂ (fun (p : Order × Int) (r : Order) =>
          r.restaurantName = p.1.restaurantName ∧ r.time = p.1.time ∧
          r.total = p.1.total ∧ r.canceled = p.1.canceled ∧
          ∃ m d, splitDate p.1.date = some (m, d) ∧
            r.date = pyTitle m ++ " " ++ d ++ " " ++ toString p.2)
        (orders.zip (specYears ms cy)) res := by
  refine ⟨applyYears orders (specYears ms cy), add_years_eq cy h, ?_,
    applyYears_frame orders _ (monthsOf_splitDate h)⟩
  have h1 := monthsOf_length h
  have h2 := specYears_length ms cy
  simp [applyYears, h1, h2]

theorem claim_C10_witness :
    ∃ res, add_years_to_orders wOrdersC1 2025 = some res ∧
      res.length = wOrdersC1.length ∧
      List.Forall₂ (fun (p : Order × Int) (r : Order) =>
          r.restaurantName = p.1.restaurantName ∧ r.time = p.1.time ∧
          r.total = p.1.total ∧ r.canceled = p.1.canceled ∧
          ∃ m d, splitDate p.1.date = some (m, d) ∧
            r.date = pyTitle m ++ " " ++ d ++ " " ++ toString p.2)
        (wOrdersC1.zip (specYears [1, 12, 12] 2025)) res :=
  claim_C10 wOrdersC1 2025 [1, 12, 12] (by decide)

theorem parseDecimal_nonneg {s : String} {v : ℚ}
    (h : parseDecimal s = some v) : 0 ≤ v := by
  unfold parseDecimal at h
  split at h
  · split at h
    · cases h
      positivity
    · exact Option.noConfusion h
  · split at h
    · cases h
      positivity
    · exact Option.noConfusion h
  · exact Option.noConfusion h

theorem parseMoney_nonneg {s : String} {v : ℚ}
    (h : parseMoney s = some v) : 0 ≤ v :=
  parseDecimal_nonneg h

theorem cumsumFrom_chain : ∀ (l : List ℚ) (acc : ℚ), (∀ x ∈ l, 0 ≤ x) →
    List.Chain' (fun a b => a ≤ b) (acc :: cumsumFrom acc l) := by
  intro l
  induction l with
  | nil => intro acc _; exact List.chain'_singleton acc
  | cons x xs ih =>
    intro acc h
    have hx : 0 ≤ x := h x (List.mem_cons_self x xs)
    exact List.Chain'.cons (by linarith)
      (ih (acc + x) (fun y hy => h y (List.mem_cons_of_mem x hy)))

theorem cumsum_chain (l : List ℚ) (h : ∀ x ∈ l, 0 ≤ x) :
    List.Chain' (fun a b => a ≤ b) (cumsum l) :=
  (cumsumFrom_chain l 0 h).tail

theorem cumsumFrom_getLast : ∀ (l : List ℚ) (acc : ℚ), l ≠ [] →
    (cumsumFrom acc l).getLast? = some (acc + l.sum) := by
  intro l
  induction l with
  | nil => intro acc h; exact absurd rfl h
  | cons x xs ih =>
    intro acc _
    cases xs with
    | nil => simp [cumsumFrom]
    | cons y ys =>
      have hrec := ih (acc + x) (List.cons_ne_nil y ys)
      show ((acc + x) :: cumsumFrom (acc + x) (y :: ys)).getLast? =
        some (acc + (x :: y :: ys).sum)
      have hexp : cumsumFrom (acc + x) (y :: ys) =
          (acc + x + y) :: cumsumFrom (acc + x + y) ys := rfl
      rw [hexp, List.getLast?_cons_cons, ← hexp, hrec]
      simp [List.sum_cons, add_assoc]

theorem sortDF_perm (l : List NOrder) : List.Perm (sortDF l) l :=
  List.perm_insertionSort _ l

/-- C4: over every non-empty normalized order list, the cumulative running
total of the time-ascending sequence is a non-decreasing prefix sum, its
final value is the total spend, and the total spend equals the sum of the
values parsed independently from each order's `total` string (currency symbol
stripped, remainder read as a decimal). -/
theorem claim_C4 (l : List NOrder) (hne : l ≠ [])
    (hv : ∀ o ∈ l, parseMoney o.base.total = some o.total_value) :
    List.Chain' (fun a b => a ≤ b)
      (cumsum ((sortDF l).map NOrder.total_value)) ∧
    (cumsum ((sortDF l).map NOrder.total_value)).getLast? =
      some (((sortDF l).map NOrder.total_value).sum) ∧
    ((sortDF l).map NOrder.total_value).sum =
      (l.map (fun o => (parseMoney o.base.total).getD 0)).sum := by
  have hperm := sortDF_perm l
  have hnn : ∀ x ∈ (sortDF l).map NOrder.total_value, 0 ≤ x := by
    intro x hx
    obtain ⟨o, ho, rfl⟩ := List.mem_map.mp hx
    exact parseMoney_nonneg (hv o (hperm.mem_iff.mp ho))
  refine ⟨cumsum_chain _ hnn, ?_, ?_⟩
  · have hne2 : (sortDF l).map NOrder.total_value ≠ [] := by
      intro hnil
      apply hne
      have h0 : (sortDF l).length = 0 := by
        simpa using congrArg List.length hnil
      have := hperm.length_eq
      exact List.length_eq_zero.mp (by omega)
    have := cumsumFrom_getLast ((sortDF l).map NOrder.total_value) 0 hne2
    simpa [cumsum] using this
  · have h1 : ((sortDF l).map NOrder.total_value).sum =
        (l.map NOrder.total_value).sum := (hperm.map _).sum_eq
    rw [h1]
    congr 1
    refine List.map_congr_left ?_
    intro o ho
    rw [hv o ho]
    rfl

theorem claim_C4_witness :
    List.Chain' (fun a b => a ≤ b)
      (cumsum ((sortDF [wNOrderJun]).map NOrder.total_value)) ∧
    (cumsum ((sortDF [wNOrderJun]).map NOrder.total_value)).getLast? =
      some (((sortDF [wNOrderJun]).map NOrder.total_value).sum) ∧
    ((sortDF [wNOrderJun]).map NOrder.total_value).sum =
      ([wNOrderJun].map (fun o => (parseMoney o.base.total).getD 0)).sum :=
  claim_C4 [wNOrderJun] (by decide)
    (by
      intro o ho
      rw [List.mem_singleton.mp ho]
      show parseMoney "$20.00" = some 20
      simp +decide [parseMoney, parseDecimal, stripCurrency, pySplit,
        splitOnChar, natOfDigits, natOfDigitsL, allDigits])

theorem gbc_foldl_filter (amount : ℚ) : ∀ (l : List CatalogItem)
    (acc : Option (ℚ × Comparison)),
    l.foldl (gbcStep amount) acc =
      (l.filter (inRange amount)).foldl (gbcUpd amount) acc := by
  intro l
  induction l with
  | nil => intro acc; rfl
  | cons x xs ih =>
    intro acc
    rw [List.foldl_cons, List.filter_cons]
    by_cases hx : (1 ≤ amount / x.price ∧ amount / x.price ≤ 10)
    · have hxb : inRange amount x = true := by
        simp [inRange, hx.1, hx.2]
      rw [if_pos hxb, List.foldl_cons]
      have hstep : gbcStep amount acc x = gbcUpd amount acc x := by
        unfold gbcStep gbcUpd
        rw [if_pos hx]
      rw [hstep]
      exact ih _
    · have hxb : ¬ (inRange amount x = true) := by
        simpa [inRange] using hx
      rw [if_neg hxb]
      have hstep : gbcStep amount acc x = acc := by
        unfold gbcStep
        rw [if_neg hx]
      rw [hstep]
      exact ih acc

theorem gbc_foldl_argmin (amount : ℚ) : ∀ (l : List CatalogItem)
    (acc : Option CatalogItem),
    l.foldl (gbcUpd amount) (acc.map (gbcPack amount)) =
      (l.foldl (List.argAux fun b c =>
        itemScore amount b < itemScore amount c) acc).map (gbcPack amount) := by
  intro l
  induction l with
  | nil => intro acc; rfl
  | cons x xs ih =>
    intro acc
    rw [List.foldl_cons, List.foldl_cons]
    have hstep : gbcUpd amount (acc.map (gbcPack amount)) x =
        ((List.argAux (fun b c => itemScore amount b < itemScore amount c)
          acc x).map (gbcPack amount)) := by
      cases acc with
      | none => rfl
      | some c =>
        show (if itemScore amount x < itemScore amount c
            then some (gbcPack amount x) else some (gbcPack amount c)) =
          Option.map (gbcPack amount)
            (if itemScore amount x < itemScore amount c then some x
             else some c)
        split <;> rfl
    rw [hstep]
    exact ih _

theorem gbc_eq_argmin (amount : ℚ) :
    get_best_comparison amount =
      (match (catalogItems.filter (inRange amount)).argmin (itemScore amount)
        with
      | some it => mkComparison (amount / it.price) it.name
      | none =>
        if amount < 100 then ⟨fmt0 (amount / 4), "Starbucks lattes ☕"⟩
        else ⟨fmt1 (amount / 80), "nice dinners out 🍽️"⟩) := by
  unfold get_best_comparison
  rw [gbc_foldl_filter amount catalogItems none]
  have hmap : (catalogItems.filter (inRange amount)).foldl (gbcUpd amount)
      none =
      ((catalogItems.filter (inRange amount)).foldl (List.argAux fun b c =>
        itemScore amount b < itemScore amount c) none).map
        (gbcPack amount) :=
    gbc_foldl_argmin amount (catalogItems.filter (inRange amount)) none
  rw [hmap]
  unfold List.argmin
  cases hres : (catalogItems.filter (inRange amount)).foldl
      (List.argAux fun b c => itemScore amount b < itemScore amount c)
      none with
  | none => rfl
  | some it => rfl

/-- C3: for every positive amount, the selection equals the first catalog
item (in catalog iteration order) of globally minimal score among the items
whose quantity lies in [1, 10] — formatted to one decimal below 10 and as a
whole number otherwise via `mkComparison` — with the stated fallback when no
item is in range; and `select(6)` yields quantity exactly "1.0" with the
lattes description. -/
theorem claim_C3 (amount : ℚ) (hpos : 0 < amount) :
    (∀ it, (catalogItems.filter (inRange amount)).argmin (itemScore amount) =
        some it →
      get_best_comparison amount = mkComparison (amount / it.price) it.name ∧
      it ∈ catalogItems.filter (inRange amount) ∧
      (∀ d ∈ catalogItems.filter (inRange amount),
        itemScore amount it ≤ itemScore amount d) ∧
      (∀ d ∈ catalogItems.filter (inRange amount),
        itemScore amount d ≤ itemScore amount it →
          (catalogItems.filter (inRange amount)).indexOf it ≤
            (catalogItems.filter (inRange amount)).indexOf d)) ∧
    ((catalogItems.filter (inRange amount)).argmin (itemScore amount) =
        none →
      get_best_comparison amount =
        if amount < 100 then ⟨fmt0 (amount / 4), "Starbucks lattes ☕"⟩
        else ⟨fmt1 (amount / 80), "nice dinners out 🍽️"⟩) ∧
    get_best_comparison 6 = ⟨"1.0", "Starbucks lattes ☕"⟩ := by
  refine ⟨?_, ?_, ?_⟩
  case refine_3 =>
    norm_num [get_best_comparison, catalogItems, gbcStep, category_bonus,
      mkComparison, fmt1, fmt0, fmtTenths, roundHalfEven]
    decide
  · intro it hit
    have heq := gbc_eq_argmin amount
    rw [hit] at heq
    have hmem : it ∈ (catalogItems.filter (inRange amount)).argmin
        (itemScore amount) := Option.mem_def.mpr hit
    exact ⟨heq, List.argmin_mem hmem,
      fun d hd => List.le_of_mem_argmin hd hmem,
      fun d hd hle => List.index_of_argmin hmem hd hle⟩
  · intro hnone
    have heq := gbc_eq_argmin amount
    rw [hnone] at heq
    exact heq

theorem claim_C3_witness :
    0 < (6 : ℚ) ∧ get_best_comparison 6 = ⟨"1.0", "Starbucks lattes ☕"⟩ :=
  ⟨by norm_num, (claim_C3 6 (by norm_num)).2.2⟩

/-- C5: the empty order list short-circuits `analyze_orders` to the explicit
no-orders document (result is `some`, so no statistic is computed and no
division error is raised), whatever the current year and chart environment
are. -/
theorem claim_C5 (current_year : Int) (env : ChartEnv) :
    analyze_orders [] current_year env = some ReportDoc.noOrders :=
  rfl

theorem computeReport_char {df : List NOrder} {env : ChartEnv}
    {r : ReportData} (h : computeReport df env = some r) (env' : ChartEnv) :
    ∃ r', computeReport df env' = some r' ∧
      r'.total_orders = r.total_orders ∧
      r'.total_spent = r.total_spent ∧
      r'.avg_order_value = r.avg_order_value ∧
      r'.canceled_orders = r.canceled_orders ∧
      r'.top_hour = r.top_hour ∧
      r'.top_day = r.top_day ∧
      r'.top_restaurant = r.top_restaurant ∧
      r'.top_restaurant_count = r.top_restaurant_count ∧
      r'.largest_value = r.largest_value ∧
      r'.largest_restaurant = r.largest_restaurant ∧
      r'.largest_date = r.largest_date ∧
      r'.comparison = r.comparison ∧
      r'.order_table = r.order_table ∧
      r'.spending_slot =
        (match upload_chart_to_s3 env'.putSpending env'.bucket "spending"
            env'.timestamp with
        | some u => Slot1.image u
        | none => Slot1.monthlyTable (groupMonthly df)) ∧
      r'.cumulative_slot =
        (match upload_chart_to_s3 env'.putCumulative env'.bucket "cumulative"
            env'.timestamp with
        | some u => Slot2.image u
        | none => Slot2.pointerText) := by
  unfold computeReport at h ⊢
  cases h1 : firstMaxBy df with
  | none => rw [h1] at h; exact Option.noConfusion h
  | some largest =>
  cases h2 : firstMode (df.map NOrder.hour) with
  | none => rw [h1, h2] at h; exact Option.noConfusion h
  | some tophr =>
  cases h3 : firstMode (df.map (fun o => day_name o.year o.month o.day)) with
  | none => rw [h1, h2, h3] at h; exact Option.noConfusion h
  | some topday =>
  cases h4 : firstMode (df.map (fun o => o.base.restaurantName)) with
  | none => rw [h1, h2, h3, h4] at h; exact Option.noConfusion h
  | some toprest =>
  cases h5 : safeDiv ((df.map NOrder.total_value).sum) df.length with
  | none => rw [h1, h2, h3, h4, h5] at h; exact Option.noConfusion h
  | some avg =>
  rw [h1, h2, h3, h4, h5] at h
  cases h
  exact ⟨_, rfl, rfl, rfl, rfl, rfl, rfl, rfl, rfl, rfl, rfl, rfl, rfl, rfl,
    rfl, rfl, rfl⟩

/-- C6: chart publishing is best-effort — a failed put yields a null URL
(`upload_chart_to_s3` returns `none` instead of propagating), the produced
report keeps every KPI card and the full order table whatever the two put
outcomes are, and each chart slot is the image on success and the fallback
content (monthly-spend table, resp. textual pointer) on failure. -/
theorem claim_C6 (orders : List Order) (cy : Int) (b t : String)
    (e1 e2 : Except String Unit) (r : ReportData)
    (h : analyze_orders orders cy ⟨b, t, e1, e2⟩ =
      some (ReportDoc.report r)) :
    (∀ e1' e2', ∃ r',
      analyze_orders orders cy ⟨b, t, e1', e2'⟩ =
        some (ReportDoc.report r') ∧
      r'.total_orders = r.total_orders ∧
      r'.total_spent = r.total_spent ∧
      r'.avg_order_value = r.avg_order_value ∧
      r'.canceled_orders = r.canceled_orders ∧
      r'.top_hour = r.top_hour ∧
      r'.top_day = r.top_day ∧
      r'.top_restaurant = r.top_restaurant ∧
      r'.top_restaurant_count = r.top_restaurant_count ∧
      r'.largest_value = r.largest_value ∧
      r'.largest_restaurant = r.largest_restaurant ∧
      r'.largest_date = r.largest_date ∧
      r'.comparison = r.comparison ∧
      r'.order_table = r.order_table) ∧
    (∃ df, pipelineDF orders cy = some df ∧
      r.spending_slot =
        (match upload_chart_to_s3 e1 b "spending" t with
        | some u => Slot1.image u
        | none => Slot1.monthlyTable (groupMonthly df)) ∧
      r.cumulative_slot =
        (match upload_chart_to_s3 e2 b "cumulative" t with
        | some u => Slot2.image u
        | none => Slot2.pointerText)) := by
  unfold analyze_orders at h
  by_cases he : orders.isEmpty
  · rw [if_pos he] at h
    simp at h
  · rw [if_neg he] at h
    cases hdf : pipelineDF orders cy with
    | none => rw [hdf] at h; exact Option.noConfusion h
    | some df =>
      rw [hdf] at h
      dsimp only at h
      cases hcr : computeReport df ⟨b, t, e1, e2⟩ with
      | none => rw [hcr] at h; exact Option.noConfusion h
      | some r0 =>
        rw [hcr] at h
        have hr : r0 = r := by
          have h' : ReportDoc.report r0 = ReportDoc.report r :=
            Option.some.inj h
          injection h'
        subst hr
        constructor
        · intro e1' e2'
          obtain ⟨r', hr', hA, hB, hC, hD, hE, hF, hG, hH, hI, hJ, hK, hL,
            hM, hS1, hS2⟩ := computeReport_char hcr ⟨b, t, e1', e2'⟩
          refine ⟨r', ?_, hA, hB, hC, hD, hE, hF, hG, hH, hI, hJ, hK, hL,
            hM⟩
          unfold analyze_orders
          rw [if_neg he, hdf]
          dsimp only
          rw [hr']
          rfl
        · obtain ⟨r'', hr'', hA, hB, hC, hD, hE, hF, hG, hH, hI, hJ, hK, hL,
            hM, hS1, hS2⟩ := computeReport_char hcr ⟨b, t, e1, e2⟩
          have hrr : r'' = r0 := by
            rw [hcr] at hr''
            exact (Option.some.inj hr'').symm
          subst hrr
          exact ⟨df, rfl, hS1, hS2⟩

theorem claim_C6_witness :
    ∃ df, pipelineDF [wOrderJun] 2025 = some df ∧
      wReportJun.spending_slot =
        (match upload_chart_to_s3 (Except.error "putfail1") "bkt" "spending"
            "ts" with
        | some u => Slot1.image u
        | none => Slot1.monthlyTable (groupMonthly df)) ∧
      wReportJun.cumulative_slot =
        (match upload_chart_to_s3 (Except.error "putfail2") "bkt"
            "cumulative" "ts" with
        | some u => Slot2.image u
        | none => Slot2.pointerText) :=
  (claim_C6 [wOrderJun] 2025 "bkt" "ts" (Except.error "putfail1")
    (Except.error "putfail2") wReportJun (by
      have hay : add_years_to_orders [wOrderJun] 2025 =
          some [⟨"A", "Jun 1 2025", "6:00 PM", "$20.00", false⟩] := by decide
      have hno : normalizeOrder
          ⟨"A", "Jun 1 2025", "6:00 PM", "$20.00", false⟩ =
          some wNOrderJun := by
        simp +decide [normalizeOrder, pySplitWs, splitOnChar, month_to_num,
          monthPairs, pyParseNat, pyParseInt, parseTime, pySplit, parseMoney,
          parseDecimal, stripCurrency, natOfDigits, natOfDigitsL, allDigits,
          wNOrderJun]
      have hdf : pipelineDF [wOrderJun] 2025 = some [wNOrderJun] := by
        unfold pipelineDF
        rw [hay]
        simp [hno, sortDF, List.insertionSort, List.mapM.loop]
      have hsum : (List.map NOrder.total_value [wNOrderJun]).sum = 20 := by
        norm_num [wNOrderJun]
      have hmax : firstMaxBy [wNOrderJun] = some wNOrderJun := by
        unfold firstMaxBy
        exact List.find?_cons_of_pos _ (by norm_num [wNOrderJun])
      have hm1 : firstMode (List.map NOrder.hour [wNOrderJun]) =
          some 18 := by decide
      have hm2 : firstMode (List.map (fun o =>
          day_name o.year o.month o.day) [wNOrderJun]) = some "Sunday" := by
        decide
      have hm3 : firstMode (List.map (fun o => o.base.restaurantName)
          [wNOrderJun]) = some "A" := by decide
      have hgbc : get_best_comparison 20 =
          ⟨"3.3", "Starbucks lattes ☕"⟩ := by
        norm_num +decide [get_best_comparison, catalogItems, gbcStep,
          category_bonus, mkComparison, fmt1, fmt0, fmtTenths, roundHalfEven,
          abs, max_def]
      have hcr : computeReport [wNOrderJun]
          ⟨"bkt", "ts", Except.error "putfail1", Except.error "putfail2"⟩ =
          some wReportJun := by
        unfold computeReport
        rw [hsum, hmax, hm1, hm2, hm3]
        norm_num [safeDiv, hgbc, groupMonthly, upload_chart_to_s3,
          wReportJun, wNOrderJun, NOrder.monthKey, hour_label]
        decide
      unfold analyze_orders
      rw [show ([wOrderJun] : List Order).isEmpty = false from rfl]
      rw [if_neg (by simp)]
      rw [hdf]
      dsimp only
      rw [hcr]
      rfl)).2

theorem find?_eq_firstEmailSeg : ∀ l : List String,
    l.find? (fun p => strContains p '@' && strContains p '.') =
      firstEmailSeg l := by
  intro l
  induction l with
  | nil => rfl
  | cons p ps ih =>
    rw [List.find?_cons]
    cases hp : (strContains p '@' && strContains p '.') with
    | true => simp [firstEmailSeg, hp]
    | false => simp [firstEmailSeg, hp, ih]

/-- C7: `extract_user_email_from_key` is total (never raises) and returns the
first `/`-separated segment containing both `@` and `.`; failing that, the
second-to-last segment when the key has more than one segment (here read off
the reversed segment list); failing that, the sentinel `"unknown"`. -/
theorem claim_C7 (key : String) :
    extract_user_email_from_key key =
      (match firstEmailSeg (pySplit '/' key) with
      | some p => p
      | none =>
        if (pySplit '/' key).length > 1 then
          (pySplit '/' key).reverse.getD 1 "unknown"
        else "unknown") := by
  unfold extract_user_email_from_key
  dsimp only
  rw [find?_eq_firstEmailSeg]
  cases firstEmailSeg (pySplit '/' key) with
  | some p => rfl
  | none =>
    by_cases hl : (pySplit '/' key).length > 1
    · rw [if_pos hl, if_pos hl]
      have h1 : 1 < (pySplit '/' key).reverse.length := by
        simpa using hl
      have h2 : (pySplit '/' key).length - 2 < (pySplit '/' key).length := by
        omega
      rw [List.getD_eq_getElem _ _ h2, List.getD_eq_getElem _ _ h1,
        List.getElem_reverse]
      congr 1 <;> omega
    · rw [if_neg hl, if_neg hl]

theorem processRecord_isOk (env : LambdaEnv) (r : S3Record)
    (h : wfRecord r) : ∃ o, processRecord env r = Except.ok o := by
  unfold processRecord
  by_cases hs : r.eventSource = "aws:s3"
  · rw [if_neg (fun hne => hne hs)]
    cases he : r.s3 with
    | none =>
      exfalso
      have := h hs
      rw [he] at this
      simp at this
    | some entity =>
      dsimp only
      split
      · exact ⟨_, rfl⟩
      · split <;> exact ⟨_, rfl⟩
  · rw [if_pos hs]
    exact ⟨_, rfl⟩

theorem runRecords_ok (env : LambdaEnv) : ∀ records : List S3Record,
    (∀ r ∈ records, wfRecord r) →
    runRecords env records =
      Except.ok (records.map (recordOutcome env)) := by
  intro records
  induction records with
  | nil => intro _; rfl
  | cons r rs ih =>
    intro h
    obtain ⟨o, ho⟩ := processRecord_isOk env r (h r (List.mem_cons_self r rs))
    have hro : recordOutcome env r = o := by
      unfold recordOutcome
      rw [ho]
    unfold runRecords
    rw [ho, ih (fun x hx => h x (List.mem_cons_of_mem r hx))]
    rw [List.map_cons, hro]

/-- C8: records of a batch are processed independently — under well-formed
records every per-record failure (fetch error, JSON parse error, bad shape,
processing exception) is caught, the outcome list is a plain map of the
per-record outcome function over the batch, and the handler returns 200 with
the success message; 500 can only arise from an error escaping the per-record
handling (a malformed record hitting the unguarded `record['s3']`
indexing). -/
theorem claim_C8 (records : List S3Record) (env : LambdaEnv)
    (h : ∀ r ∈ records, wfRecord r) :
    lambda_handler records env =
      ⟨200, "Uber Eats analysis completed successfully",
        records.map (recordOutcome env)⟩ := by
  unfold lambda_handler
  rw [runRecords_ok env records h]

theorem claim_C8_witness :
    lambda_handler wRecords wLambdaEnv =
      ⟨200, "Uber Eats analysis completed successfully",
        [RecordOutcome.fetchError, RecordOutcome.skippedNonJson]⟩ := by
  have h := claim_C8 wRecords wLambdaEnv (by simp +decide [wRecords, wfRecord])
  rw [h]
  decide

/-- C9: `send_email` checks the two configuration values first: if the API
key or the sender address is absent (or empty), a configuration `ValueError`
is raised at once — the inner body errors with the corresponding message
whatever outcome the delivery attempt would have had, so no delivery is
attempted, and the caught error makes `send_email` return `False` for that
send. -/
theorem claim_C9 (api_key sender : Option String)
    (h : pyFalsy api_key = true ∨ pyFalsy sender = true)
    (sendResult : Except String Nat) :
    send_email_inner api_key sender sendResult =
      Except.error (if pyFalsy api_key then
        "DEREK_SENDGRID_API_KEY environment variable is not set"
      else "DEREK_SENDER_EMAIL environment variable is not set") ∧
    send_email api_key sender sendResult = false := by
  unfold send_email send_email_inner
  rcases h with h | h
  · simp [h]
  · by_cases hk : pyFalsy api_key = true
    · simp [hk]
    · have hk' : pyFalsy api_key = false := by
        revert hk
        cases pyFalsy api_key <;> simp
      simp [hk', h]

theorem claim_C9_witness :
    send_email_inner none none (Except.ok 202) =
      Except.error "DEREK_SENDGRID_API_KEY environment variable is not set" ∧
    send_email none none (Except.ok 202) = false := by
  have h := claim_C9 none none (Or.inl rfl) (Except.ok 202)
  simpa using h

end UberEats
